import Mathlib

/-!
Shallow embedding of the TVM disco distributed-session runtime:
the packed-argument codec and packet framing of
`src/runtime/minrpc/rpc_reference.h`, the in-process message queue and
threaded session of `src/runtime/disco/threaded_session.cc`, and the
socket session controller/relay of
`src/runtime/disco/distributed/socket_session.cc`.

Machine integers are modelled as `Nat`/`Int`; the wire is a `List Nat`
of byte values; each multi-byte scalar is written in its native
(little-endian) fixed-width representation, exactly as the C++
`channel->Write<T>` memcpy does.
-/

namespace TVMDisco

/-! ### Byte-level primitives -/

/-- Little-endian byte list of width `k` holding the low `8*k` bits of `n`. -/
def leBytes : Nat → Nat → List Nat
  | 0, _ => []
  | k + 1, n => n % 256 :: leBytes k (n / 256)

/-- Value of a little-endian byte list. -/
def lebValue : List Nat → Nat
  | [] => 0
  | b :: bs => b + 256 * lebValue bs

/-- Two's-complement encoding of a `8*k`-bit signed integer. -/
def iBytes (k : Nat) (v : Int) : List Nat := leBytes k (v % ((2 : Int) ^ (8 * k))).toNat

def i64Bytes (v : Int) : List Nat := iBytes 8 v
def i32Bytes (v : Int) : List Nat := iBytes 4 v

/-- Reinterpret the low `w` bits as a two's-complement signed value. -/
def toSigned (w : Nat) (n : Nat) : Int :=
  if n < 2 ^ (w - 1) then (n : Int) else (n : Int) - 2 ^ w

/-! ### Protocol enums, from `rpc_reference.h` -/

/-- The RPC code (`enum class RPCCode : int`). -/
inductive RPCCode where
  | kNone | kShutdown | kInitServer | kCallFunc | kReturn | kException
  | kCopyFromRemote | kCopyToRemote | kCopyAck
deriving DecidableEq, Repr

/-- Numeric value of an `RPCCode` (C++ enum, consecutive from 0). -/
def RPCCode.toInt : RPCCode → Int
  | .kNone => 0
  | .kShutdown => 1
  | .kInitServer => 2
  | .kCallFunc => 3
  | .kReturn => 4
  | .kException => 5
  | .kCopyFromRemote => 6
  | .kCopyToRemote => 7
  | .kCopyAck => 8

/-- Error status during RPC communication (`enum class RPCServerStatus`). -/
inductive RPCServerStatus where
  | kSuccess | kInvalidTypeCodeObject | kInvalidTypeCodeNDArray
  | kInvalidDLTensorFieldStride | kInvalidDLTensorFieldByteOffset
  | kUnknownTypeIndex | kUnknownRPCCode | kRPCCodeNotSupported
  | kUnknownRPCSyscall | kCheckError | kReadError | kWriteError | kAllocError
deriving DecidableEq, Repr

/-- Modelled from the spec: the `ffi::TypeIndex` constants used by the codec
live in the `tvm/ffi` headers, which are not part of this repository slice.
The spec only requires the tags to be distinct, with plain-old-data tags in a
low range and object tags at and above a generic-object threshold
(`kTVMFFIStaticObjectBegin`); the values below follow the tvm-ffi layout. -/
def tiNone : Int := 0
def tiInt : Int := 1
def tiBool : Int := 2
def tiFloat : Int := 3
def tiOpaquePtr : Int := 4
def tiDataType : Int := 5
def tiDevice : Int := 6
def tiDLTensorPtr : Int := 7
def tiRawStr : Int := 8
def tiByteArrayPtr : Int := 9
def tiStaticObjectBegin : Int := 64
def tiNDArray : Int := 66
def tiFunction : Int := 68
def tiModule : Int := 70

/-! ### Data model: the representable argument values -/

/-- `DLDataType`: `{uint8 code; uint8 bits; uint16 lanes}` (4 bytes). -/
structure DLDataType where
  code : Nat
  bits : Nat
  lanes : Nat
deriving DecidableEq, Repr

/-- `DLDevice`: `{int32 device_type; int32 device_id}` (8 bytes). -/
structure DLDevice where
  device_type : Int
  device_id : Int
deriving DecidableEq, Repr

/-- `DLTensor` metadata as transported by `SendDLTensor`/`ReceiveDLTensor`:
the raw `data` pointer travels as an opaque 64-bit handle, `shape` has
`ndim` entries, and `strides`/`byte_offset` follow the DLPack struct. -/
structure DLTensor where
  data : Nat
  device : DLDevice
  dtype : DLDataType
  shape : List Int
  strides : Option (List Int)
  byte_offset : Nat
deriving DecidableEq, Repr

/-- A `TVMFFIAny` tagged-union value, restricted to the cases the codec
branches on. `bool`/`int`/`float` carry the raw `v_int64` union field
(for floats this is the bit pattern of the double). -/
inductive FFIAny where
  | none
  | bool (v : Int)
  | int (v : Int)
  | float (v : Int)
  | opaquePtr (h : Nat)
  | dataType (d : DLDataType)
  | device (d : DLDevice)
  | func (h : Nat)
  | module (h : Nat)
  | ndarray
  | tensor (t : DLTensor)
  | rawStr (s : List Nat)
  | byteArr (b : List Nat)
deriving DecidableEq, Repr

/-- The `type_index` field of a `TVMFFIAny`. -/
def FFIAny.typeIndex : FFIAny → Int
  | .none => tiNone
  | .bool _ => tiBool
  | .int _ => tiInt
  | .float _ => tiFloat
  | .opaquePtr _ => tiOpaquePtr
  | .dataType _ => tiDataType
  | .device _ => tiDevice
  | .func _ => tiFunction
  | .module _ => tiModule
  | .ndarray => tiNDArray
  | .tensor _ => tiDLTensorPtr
  | .rawStr _ => tiRawStr
  | .byteArr _ => tiByteArrayPtr

/-! ### Encoder: `RPCReference::SendPackedSeq` and `SendDLTensor` -/

/-- Bytes of a `DLDataType` as written by `channel->Write(dtype)`. -/
def dtypeBytes (d : DLDataType) : List Nat :=
  leBytes 1 d.code ++ leBytes 1 d.bits ++ leBytes 2 d.lanes

/-- Bytes of a `DLDevice` as written by `channel->Write(dev)`. -/
def deviceBytes (d : DLDevice) : List Nat :=
  i32Bytes d.device_type ++ i32Bytes d.device_id

/-- `RPCReference::SendDLTensor`: writes data handle, device, ndim, dtype
and shape, then raises `kInvalidDLTensorFieldStride` if `strides` is
non-null, else writes `byte_offset`. Returns the bytes written before any
error together with the error status, if one was raised. -/
def sendDLTensor (t : DLTensor) : List Nat × Option RPCServerStatus :=
  let head := leBytes 8 t.data ++ deviceBytes t.device ++
    i32Bytes (t.shape.length : Int) ++ dtypeBytes t.dtype ++ t.shape.flatMap i64Bytes
  match t.strides with
  | some _ => (head, some RPCServerStatus.kInvalidDLTensorFieldStride)
  | Option.none => (head ++ leBytes 8 t.byte_offset, Option.none)

/-- One argument of `RPCReference::SendPackedSeq`: the `type_index` is
written first, then the payload per the switch. Returns the bytes written
before any error and the raised status, if any. -/
def sendArg (client_mode : Bool) (a : FFIAny) : List Nat × Option RPCServerStatus :=
  let tag := i32Bytes a.typeIndex
  match a with
  | .none => (tag, Option.none)
  | .bool v => (tag ++ i64Bytes v, Option.none)
  | .int v => (tag ++ i64Bytes v, Option.none)
  | .float v => (tag ++ i64Bytes v, Option.none)
  | .opaquePtr h => (tag ++ leBytes 8 h, Option.none)
  | .dataType d => (tag ++ dtypeBytes d ++ i32Bytes 0, Option.none)
  | .device d => (tag ++ deviceBytes d, Option.none)
  | .func h =>
    if client_mode then (tag ++ leBytes 8 h, Option.none)
    else (tag, some RPCServerStatus.kInvalidTypeCodeObject)
  | .module h =>
    if client_mode then (tag ++ leBytes 8 h, Option.none)
    else (tag, some RPCServerStatus.kInvalidTypeCodeObject)
  | .ndarray => (tag, some RPCServerStatus.kInvalidTypeCodeNDArray)
  | .tensor t =>
    let p := sendDLTensor t
    (tag ++ p.1, p.2)
  | .rawStr s => (tag ++ leBytes 8 s.length ++ s, Option.none)
  | .byteArr b => (tag ++ leBytes 8 b.length ++ b, Option.none)

/-- The argument loop of `SendPackedSeq`: encoding stops at the first
argument whose encoding raises (`ThrowError` aborts the send). -/
def sendArgs (client_mode : Bool) : List FFIAny → List Nat × Option RPCServerStatus
  | [] => ([], Option.none)
  | a :: rest =>
    let p := sendArg client_mode a
    match p.2 with
    | some st => (p.1, some st)
    | Option.none =>
      let q := sendArgs client_mode rest
      (p.1 ++ q.1, q.2)

/-- `RPCReference::SendPackedSeq`: writes `num_args` (an `int`, 4 bytes)
then each argument in order. -/
def sendPackedSeq (args : List FFIAny) (client_mode : Bool) :
    List Nat × Option RPCServerStatus :=
  let q := sendArgs client_mode args
  (i32Bytes (args.length : Int) ++ q.1, q.2)

/-! ### Decoder: `RPCReference::RecvPackedSeq` and `ReceiveDLTensor` -/

/-- Decode-side failure modes. `status` carries a `ThrowError` status;
`truncated` models reading past the stream; `unmodeledObject` marks the
generic-object path (`ReadFFIAny`) whose codec lives outside this
repository slice; `wouldBlock` models a `Recv` on an empty queue;
`fatalError` models a `LOG(FATAL)`; `castError` a failed `AnyView` cast. -/
inductive DecErr where
  | status (s : RPCServerStatus)
  | truncated
  | unmodeledObject
  | wouldBlock
  | fatalError
  | castError
deriving DecidableEq, Repr

/-- Read `k` raw bytes from the stream. -/
def readN (k : Nat) (s : List Nat) : Except DecErr (List Nat × List Nat) :=
  if k ≤ s.length then .ok (s.take k, s.drop k) else .error DecErr.truncated

/-- Read a `k`-byte unsigned little-endian scalar. -/
def readU (k : Nat) (s : List Nat) : Except DecErr (Nat × List Nat) :=
  match readN k s with
  | .ok (bs, rest) => .ok (lebValue bs, rest)
  | .error e => .error e

/-- Read a `k`-byte two's-complement signed scalar. -/
def readI (k : Nat) (s : List Nat) : Except DecErr (Int × List Nat) :=
  match readU k s with
  | .ok (n, rest) => .ok (toSigned (8 * k) n, rest)
  | .error e => .error e

/-- Read a `DLDevice` (`channel->Read(&dev)`, 8 bytes). -/
def readDevice (s : List Nat) : Except DecErr (DLDevice × List Nat) := do
  let (t, s) ← readI 4 s
  let (i, s) ← readI 4 s
  .ok (⟨t, i⟩, s)

/-- Read a `DLDataType` (`channel->Read(&dtype)`, 4 bytes). -/
def readDtype (s : List Nat) : Except DecErr (DLDataType × List Nat) := do
  let (c, s) ← readU 1 s
  let (b, s) ← readU 1 s
  let (l, s) ← readU 2 s
  .ok (⟨c, b, l⟩, s)

/-- Read `k` consecutive `int64` values (`channel->ReadArray`). -/
def readI64List : Nat → List Nat → Except DecErr (List Int × List Nat)
  | 0, s => .ok ([], s)
  | k + 1, s => do
    let (v, s) ← readI 8 s
    let (vs, s) ← readI64List k s
    .ok (v :: vs, s)

/-- `RPCReference::ReceiveDLTensor`: reads handle, device, ndim, dtype,
shape and byte_offset; `strides` is set to null. -/
def receiveDLTensor (s : List Nat) : Except DecErr (DLTensor × List Nat) := do
  let (handle, s) ← readU 8 s
  let (dev, s) ← readDevice s
  let (ndim, s) ← readI 4 s
  let (dt, s) ← readDtype s
  let (shape, s) ← readI64List ndim.toNat s
  let (off, s) ← readU 8 s
  .ok (⟨handle, dev, dt, shape, Option.none, off⟩, s)

/-- The per-argument switch of `RecvPackedSeq`, branching on the received
`type_index` exactly as the source does; an unhandled tag below
`kTVMFFIStaticObjectBegin` raises `kUnknownTypeIndex`, and tags at or
above it go to the generic object codec (`ReadFFIAny`, unmodeled). -/
def recvArgPayload (t : Int) (s : List Nat) : Except DecErr (FFIAny × List Nat) :=
  if t = tiNone then .ok (.none, s)
  else if t = tiBool then do
    let (v, s) ← readI 8 s
    .ok (.bool v, s)
  else if t = tiInt then do
    let (v, s) ← readI 8 s
    .ok (.int v, s)
  else if t = tiFloat then do
    let (v, s) ← readI 8 s
    .ok (.float v, s)
  else if t = tiOpaquePtr then do
    let (h, s) ← readU 8 s
    .ok (.opaquePtr h, s)
  else if t = tiDataType then do
    let (d, s) ← readDtype s
    let (_padding, s) ← readI 4 s
    .ok (.dataType d, s)
  else if t = tiDevice then do
    let (d, s) ← readDevice s
    .ok (.device d, s)
  else if t = tiFunction then do
    let (h, s) ← readU 8 s
    .ok (.func h, s)
  else if t = tiModule then do
    let (h, s) ← readU 8 s
    .ok (.module h, s)
  else if t = tiRawStr then do
    let (len, s) ← readU 8 s
    let (str, s) ← readN len s
    .ok (.rawStr str, s)
  else if t = tiByteArrayPtr then do
    let (len, s) ← readU 8 s
    let (bytes, s) ← readN len s
    .ok (.byteArr bytes, s)
  else if t = tiDLTensorPtr then do
    let (arr, s) ← receiveDLTensor s
    .ok (.tensor arr, s)
  else if tiStaticObjectBegin ≤ t then .error DecErr.unmodeledObject
  else .error (DecErr.status RPCServerStatus.kUnknownTypeIndex)

/-- The argument loop of `RecvPackedSeq`: each iteration reads a
`type_index` and dispatches on it. -/
def recvArgs : Nat → List Nat → Except DecErr (List FFIAny × List Nat)
  | 0, s => .ok ([], s)
  | n + 1, s => do
    let (t, s) ← readI 4 s
    let (a, s) ← recvArgPayload t s
    let (rest, s) ← recvArgs n s
    .ok (a :: rest, s)

/-- `RPCReference::RecvPackedSeq`: reads `num_args` then the arguments. -/
def recvPackedSeq (s : List Nat) : Except DecErr (List FFIAny × List Nat) := do
  let (num_args, s) ← readI 4 s
  if num_args = 0 then .ok ([], s)
  else recvArgs num_args.toNat s

/-! ### Packet framing: `PackedSeqGetNumBytes`, `ReturnPackedSeq`,
`ReturnException`, `ReturnVoid` -/

/-- `PackedSeqNumBytesGetter` applied to one argument's payload: each
`Write<T>` adds `sizeof(T)`, each `WriteArray` adds `sizeof(T) * num`. -/
def numBytesPayload : FFIAny → Nat
  | .none => 0
  | .bool _ => 8
  | .int _ => 8
  | .float _ => 8
  | .opaquePtr _ => 8
  | .dataType _ => 8
  | .device _ => 8
  | .func _ => 8
  | .module _ => 8
  | .ndarray => 0
  | .tensor t => 8 + 8 + 4 + 4 + 8 * t.shape.length + 8
  | .rawStr s => 8 + s.length
  | .byteArr b => 8 + b.length

/-- `RPCReference::PackedSeqGetNumBytes`: runs `SendPackedSeq` against the
byte-counting getter — 4 bytes for `num_args`, then per argument 4 bytes
of `type_index` plus the payload size. -/
def packedSeqGetNumBytes (args : List FFIAny) (client_mode : Bool) : Nat :=
  let _ := client_mode
  4 + (args.map (fun a => 4 + numBytesPayload a)).sum

/-- `RPCReference::ReturnPackedSeq`: one packet
`[u64 packet_nbytes][code = kReturn][packed seq]`, where `packet_nbytes`
is precomputed by `PackedSeqGetNumBytes` (which raises first if the
sequence is unencodable). -/
def returnPackedSeq (args : List FFIAny) : List Nat × Option RPCServerStatus :=
  match (sendPackedSeq args false).2 with
  | some st => ([], some st)
  | Option.none =>
    let packet_nbytes := 4 + packedSeqGetNumBytes args false
    (leBytes 8 packet_nbytes ++ i32Bytes RPCCode.kReturn.toInt ++ (sendPackedSeq args false).1,
      Option.none)

/-- `RPCReference::ReturnException`: one packet
`[u64 nbytes][kException][num_args = 1][kTVMFFIRawStr][u64 len][msg]`. -/
def returnException (msg : List Nat) : List Nat :=
  let packet_nbytes := 4 + 4 + 4 + 8 + msg.length
  leBytes 8 packet_nbytes ++ i32Bytes RPCCode.kException.toInt ++
    i32Bytes 1 ++ i32Bytes tiRawStr ++ leBytes 8 msg.length ++ msg

/-- `RPCReference::ReturnVoid`: one packet
`[u64 nbytes][kReturn][num_args = 1][kTVMFFINone]`. -/
def returnVoid : List Nat :=
  let packet_nbytes := 4 + 4 + 4
  leBytes 8 packet_nbytes ++ i32Bytes RPCCode.kReturn.toInt ++
    i32Bytes 1 ++ i32Bytes tiNone

/-! ### Well-formedness of representable values -/

def int64RangeB (v : Int) : Bool := decide (-(2 ^ 63) ≤ v) && decide (v < 2 ^ 63)

def int32RangeB (v : Int) : Bool := decide (-(2 ^ 31) ≤ v) && decide (v < 2 ^ 31)

def wfDtype (d : DLDataType) : Bool :=
  decide (d.code < 256) && decide (d.bits < 256) && decide (d.lanes < 65536)

def wfDevice (d : DLDevice) : Bool :=
  int32RangeB d.device_type && int32RangeB d.device_id

def wfTensor (t : DLTensor) : Bool :=
  decide (t.data < 2 ^ 64) && wfDevice t.device && wfDtype t.dtype &&
  decide (t.shape.length < 2 ^ 31) && t.shape.all int64RangeB &&
  t.strides.isNone && decide (t.byte_offset < 2 ^ 64)

/-- A representable argument value in the sense of the round-trip claim:
one of the plain-old-data kinds, in machine-integer range, with dense
(stride-free) tensor descriptors; `Function`/`Module`/`NDArray` and
generic objects are excluded. -/
def wfArg : FFIAny → Bool
  | .none => true
  | .bool v => int64RangeB v
  | .int v => int64RangeB v
  | .float v => int64RangeB v
  | .opaquePtr h => decide (h < 2 ^ 64)
  | .dataType d => wfDtype d
  | .device d => wfDevice d
  | .func _ => false
  | .module _ => false
  | .ndarray => false
  | .tensor t => wfTensor t
  | .rawStr s => decide (s.length < 2 ^ 64) && s.all (fun b => decide (b < 256) && decide (b ≠ 0))
  | .byteArr b => decide (b.length < 2 ^ 64) && b.all (fun x => decide (x < 256))

def wfSeq (args : List FFIAny) : Bool :=
  decide (args.length < 2 ^ 31) && args.all wfArg

/-- A sendable message: well-formed and fitting in the `u64` length word. -/
def wfMsg (args : List FFIAny) : Bool :=
  wfSeq args && decide (4 + packedSeqGetNumBytes args false < 2 ^ 64)

/-! ### In-process message queue (`DiscoThreadedMessageQueue`) -/

/-- The shared state of one direction of a `DiscoThreadedMessageQueue`:
the ring buffer of framed packet bytes and the pending-message counter. -/
structure MQueue where
  ring : List Nat
  msg_cnt : Nat
deriving DecidableEq, Repr

/-- `DiscoThreadedMessageQueue::Send`: serialize via
`RPCReference::ReturnPackedSeq` into the private write buffer, then
`CommitSendAndNotifyEnqueue` appends the framed bytes to the ring buffer
and increments the counter. -/
def mqSend (q : MQueue) (args : List FFIAny) : MQueue :=
  ⟨q.ring ++ (returnPackedSeq args).1, q.msg_cnt + 1⟩

/-- `DiscoThreadedMessageQueue::Recv`: `DequeueNextPacket` blocks until
the counter is positive, decrements it, reads the `u64` length word and
then exactly that many bytes into the read buffer; the `RPCCode` is read
and discarded, and `RecvPackedSeq` decodes the rest of the packet body. -/
def mqRecv (q : MQueue) : Except DecErr (List FFIAny × MQueue) :=
  if q.msg_cnt = 0 then .error DecErr.wouldBlock
  else
    match readU 8 q.ring with
    | .error e => .error e
    | .ok (packet_nbytes, ring1) =>
      match readN packet_nbytes ring1 with
      | .error e => .error e
      | .ok (body, ring2) => do
        let (_code, body1) ← readI 4 body
        let (args, _leftover) ← recvPackedSeq body1
        .ok (args, ⟨ring2, q.msg_cnt - 1⟩)

def mqSendAll (q : MQueue) (msgs : List (List FFIAny)) : MQueue :=
  msgs.foldl mqSend q

def mqRecvN : Nat → MQueue → Except DecErr (List (List FFIAny) × MQueue)
  | 0, q => .ok ([], q)
  | n + 1, q => do
    let (a, q1) ← mqRecv q
    let (rest, q2) ← mqRecvN n q1
    .ok (a :: rest, q2)

/-! ### Threaded session topology (`Session::ThreadedSession`) -/

/-- The identity triple a `DiscoWorker` is constructed with. -/
structure DiscoWorkerId where
  worker_id : Int
  num_workers : Int
  num_groups : Int
deriving DecidableEq, Repr

/-- `Session::ThreadedSession`: `CHECK_EQ(num_workers % num_group, 0)` is
fatal, otherwise `ThreadedSessionObj` constructs workers `0 .. n-1`,
each with the full worker/group counts. -/
def threadedSession (num_workers num_group : Int) : Except String (List DiscoWorkerId) :=
  if num_workers % num_group = 0 then
    .ok ((List.range num_workers.toNat).map fun i => ⟨(i : Int), num_workers, num_group⟩)
  else
    .error "The number of workers should be divisible by the number of worker group."

/-- `runtime.disco.socket_session_init_workers`: rebases a local worker id
onto the global topology (`worker_id += node_id * num_workers_per_node`,
`num_workers = num_nodes * num_workers_per_node`). -/
def socketSessionInitWorkers (num_nodes node_id num_groups num_workers_per_node : Int)
    (w : DiscoWorkerId) : DiscoWorkerId :=
  ⟨w.worker_id + node_id * num_workers_per_node,
    num_nodes * num_workers_per_node, num_groups⟩

/-! ### Debug register access through the sync barrier -/

/-- Modelled from the spec: a command dispatched to a worker; its only
register-file effect is an optional write of one register (the worker's
`Execute` may stash a result under a caller-specified register id). -/
inductive DiscoCmd where
  | writeReg (reg_id : Int) (v : FFIAny)
  | noRegEffect
deriving DecidableEq, Repr

/-- Lookup in a register file (newest binding wins). -/
def regLookup : List (Int × FFIAny) → Int → Option FFIAny
  | [], _ => Option.none
  | (k, v) :: rest, r => if k = r then some v else regLookup rest r

def regSet (regs : List (Int × FFIAny)) (r : Int) (v : FFIAny) : List (Int × FFIAny) :=
  (r, v) :: regs

def applyCmd (regs : List (Int × FFIAny)) : DiscoCmd → List (Int × FFIAny)
  | .writeReg r v => regSet regs r v
  | .noRegEffect => regs

def cmdWritesReg (c : DiscoCmd) (reg : Int) : Bool :=
  match c with
  | .writeReg r _ => r = reg
  | .noRegEffect => false

/-- Modelled from the spec: a worker's register file together with the
commands enqueued on its channel but not yet executed (`DiscoWorker`'s
main loop is not part of this repository slice). -/
structure DiscoWorkerRT where
  register_file : List (Int × FFIAny)
  pending : List DiscoCmd
deriving DecidableEq, Repr

/-- Modelled from the spec: `SyncWorker` is the synchronization barrier
that forces the worker to drain (execute) all previously enqueued
commands before returning. -/
def syncWorker (w : DiscoWorkerRT) : DiscoWorkerRT :=
  ⟨w.pending.foldl applyCmd w.register_file, []⟩

/-- Update the `i`-th element of a list in place. -/
def listUpd : List α → Nat → (α → α) → List α
  | [], _, _ => []
  | x :: xs, 0, f => f x :: xs
  | x :: xs, n + 1, f => x :: listUpd xs n f

/-- The controller-side session state: one worker per thread. -/
structure ThreadedSessionSt where
  workers : List DiscoWorkerRT
deriving DecidableEq, Repr

/-- `ThreadedSessionObj::DebugSetRegister`: `SyncWorker(worker_id)` first,
then write the register on the drained worker. -/
def tsDebugSetRegister (s : ThreadedSessionSt) (reg_id : Int) (value : FFIAny)
    (worker_id : Nat) : ThreadedSessionSt :=
  ⟨listUpd s.workers worker_id fun w =>
    let w1 := syncWorker w
    ⟨regSet w1.register_file reg_id value, w1.pending⟩⟩

/-- `ThreadedSessionObj::DebugGetFromRemote`: `SyncWorker(worker_id)`
first, then read `register_file.at(reg_id)` on the drained worker. -/
def tsDebugGetFromRemote (s : ThreadedSessionSt) (reg_id : Int) (worker_id : Nat) :
    Option FFIAny × ThreadedSessionSt :=
  let s1 : ThreadedSessionSt := ⟨listUpd s.workers worker_id syncWorker⟩
  (match s1.workers[worker_id]? with
   | some w => regLookup w.register_file reg_id
   | Option.none => Option.none,
   s1)

/-- Enqueue further commands on a worker's channel (sends are
non-blocking; the commands stay pending until drained). -/
def tsEnqueue (s : ThreadedSessionSt) (worker_id : Nat) (cs : List DiscoCmd) :
    ThreadedSessionSt :=
  ⟨listUpd s.workers worker_id fun w => ⟨w.register_file, w.pending ++ cs⟩⟩

/-! ### Socket session: controller routing, relay loop, handshake,
shutdown (`socket_session.cc`) -/

/-- Modelled from the spec: the numeric value of `DiscoAction::kShutDown`
(`protocol.h` is not part of this repository slice); `DiscoSocketAction`
continues the enumeration from it, as in the source. -/
def discoShutDownCode : Int := 0

/-- `DiscoSocketAction::kSend`. -/
def discoSendCode : Int := discoShutDownCode + 1

/-- `DiscoSocketAction::kReceive`. -/
def discoReceiveCode : Int := discoShutDownCode + 2

/-- `AnyView::cast<int>()` on an envelope element. -/
def argAsInt : FFIAny → Except DecErr Int
  | .int v => .ok v
  | _ => .error DecErr.castError

/-- The abstract interface of the node-local `BcastSession` the relay
forwards into (its in-process implementation is modelled separately). -/
structure BcastSessionI (σ : Type) where
  sendPacked : σ → Int → List FFIAny → σ
  recvReplyPacked : σ → Int → List FFIAny × σ
  broadcastPacked : σ → List FFIAny → σ
  shutdown : σ → σ

/-- `SocketSessionObj::SendPacked` envelope for a remote node: the
forwarded command is tagged `[kSend][target worker id]`. -/
def ctrlSendEnvelope (worker_id : Int) (args : List FFIAny) : List FFIAny :=
  FFIAny.int discoSendCode :: FFIAny.int worker_id :: args

/-- `SocketSessionObj::BroadcastPacked` envelope: target `-1` denotes
broadcast-within-node. -/
def ctrlBroadcastEnvelope (args : List FFIAny) : List FFIAny :=
  FFIAny.int discoSendCode :: FFIAny.int (-1) :: args

/-- `SocketSessionObj::RecvReplyPacked` envelope: `[kReceive][worker id]`. -/
def ctrlReceiveEnvelope (worker_id : Int) : List FFIAny :=
  [FFIAny.int discoReceiveCode, FFIAny.int worker_id]

/-- `SocketSessionObj::Shutdown` envelope: `[kShutdown][-1]`. -/
def ctrlShutdownEnvelope : List FFIAny :=
  [FFIAny.int discoShutDownCode, FFIAny.int (-1)]

/-- The routing rule `node_id = worker_id / num_workers_per_node` used by
`SendPacked`, `RecvReplyPacked` and the debug accessors. -/
def ctrlNodeId (num_workers_per_node worker_id : Int) : Int :=
  worker_id / num_workers_per_node

/-- One iteration of `RemoteSocketSession::MainLoop`: decode the action
byte and target worker id, compute
`local_worker_id = worker_id - node_id * num_workers_per_node`, and
dispatch. Produces the new local-session state, the replies sent back to
the controller, and whether the loop continues. -/
def relayStep {σ : Type} (L : BcastSessionI σ) (node_id num_workers_per_node : Int)
    (s : σ) (msg : List FFIAny) : Except DecErr (σ × List (List FFIAny) × Bool) := do
  let action ← argAsInt (msg.headD FFIAny.none)
  let worker_id ← argAsInt ((msg.drop 1).headD FFIAny.none)
  let local_worker_id := worker_id - node_id * num_workers_per_node
  if action = discoSendCode then
    let args := msg.drop 2
    if worker_id = -1 then .ok (L.broadcastPacked s args, [], true)
    else .ok (L.sendPacked s local_worker_id args, [], true)
  else if action = discoReceiveCode then
    let p := L.recvReplyPacked s local_worker_id
    .ok (p.2, [p.1], true)
  else if action = discoShutDownCode then
    .ok (L.shutdown s, [], false)
  else .error DecErr.fatalError

/-- Run the relay loop over a list of received envelopes, accumulating
the replies it sends back; stops after a shutdown action. -/
def relayRun {σ : Type} (L : BcastSessionI σ) (node_id num_workers_per_node : Int)
    (s : σ) : List (List FFIAny) → Except DecErr (σ × List (List FFIAny) × Bool)
  | [] => .ok (s, [], true)
  | m :: ms => do
    let (s1, rs, cont) ← relayStep L node_id num_workers_per_node s m
    if cont then
      let (s2, rs2, c2) ← relayRun L node_id num_workers_per_node s1 ms
      .ok (s2, rs ++ rs2, c2)
    else .ok (s1, rs, false)

/-- The 4-field metadata tuple of the wire handshake. -/
def metadataMsg (num_nodes num_workers_per_node num_groups node_id : Int) : List FFIAny :=
  [FFIAny.int num_nodes, FFIAny.int num_workers_per_node,
   FFIAny.int num_groups, FFIAny.int node_id]

/-- The sends performed by the `SocketSessionObj` constructor: for each
accepted connection `i` (0-based), exactly one message — the metadata
tuple with `node_id = i + 1` — is sent on the fresh channel `i`, before
any other traffic. -/
def socketSessionCtorSends (num_nodes num_workers_per_node num_groups : Int) :
    List (Nat × List FFIAny) :=
  (List.range (num_nodes - 1).toNat).map fun i =>
    (i, metadataMsg num_nodes num_workers_per_node num_groups ((i : Int) + 1))

/-- The messages a channel trace holds for one given channel index. -/
def sendsOnChannel (k : Nat) (trace : List (Nat × List FFIAny)) : List (List FFIAny) :=
  trace.filterMap fun p => if p.1 = k then some p.2 else Option.none

/-- `RemoteSocketSession::RemoteSocketSession` after connecting: the very
first `Recv` must be the metadata message of exactly 4 fields, parsed in
order `{num_nodes, num_workers_per_node, num_groups, node_id}`
(`ICHECK_EQ(metadata.size(), 4)` is fatal otherwise). -/
def remoteCtorHandshake (incoming : List (List FFIAny)) :
    Except DecErr ((Int × Int × Int × Int) × List (List FFIAny)) :=
  match incoming with
  | [] => .error DecErr.wouldBlock
  | m :: rest =>
    match m with
    | [a, b, c, d] => do
      let num_nodes ← argAsInt a
      let num_workers_per_node ← argAsInt b
      let num_groups ← argAsInt c
      let node_id ← argAsInt d
      .ok ((num_nodes, num_workers_per_node, num_groups, node_id), rest)
    | _ => .error DecErr.fatalError

/-! ### Socket session shutdown -/

/-- Externally visible effects of `SocketSessionObj::Shutdown`. -/
inductive ShutdownEvent where
  | sendMsg (channel : Nat) (m : List FFIAny)
  | closeRemote (idx : Nat)
  | closeListen
  | finalize
deriving DecidableEq, Repr

/-- The shutdown-relevant state of a `SocketSessionObj`: the remote
socket and channel lists and whether the listening socket is closed. -/
structure SocketSessionSt where
  num_remote_sockets : Nat
  num_remote_channels : Nat
  listen_closed : Bool
deriving DecidableEq, Repr

/-- `SocketSessionObj::Shutdown`: send the shutdown envelope on every
remote channel, close every remote socket, clear both lists, close the
listening socket only if it is not already closed, then
`Socket::Finalize`. -/
def socketShutdown (s : SocketSessionSt) : SocketSessionSt × List ShutdownEvent :=
  (⟨0, 0, true⟩,
    ((List.range s.num_remote_channels).map fun i => ShutdownEvent.sendMsg i ctrlShutdownEnvelope)
    ++ ((List.range s.num_remote_sockets).map ShutdownEvent.closeRemote)
    ++ (if s.listen_closed then [] else [ShutdownEvent.closeListen])
    ++ [ShutdownEvent.finalize])

/-- `SocketSessionObj::~SocketSessionObj` simply calls `Shutdown()`. -/
def socketSessionDtor (s : SocketSessionSt) : SocketSessionSt × List ShutdownEvent :=
  socketShutdown s

/-- The encoder's rejection condition, collected from the
`Function`/`Module`, `NDArray` and `SendDLTensor` branches of
`SendPackedSeq`. -/
def offending (client_mode : Bool) : FFIAny → Bool
  | .ndarray => true
  | .func _ => !client_mode
  | .module _ => !client_mode
  | .tensor t => t.strides.isSome
  | _ => false

/-- A one-argument sequence holding a tensor descriptor with a non-null
strides field. -/
def stridedTensorArgs : List FFIAny :=
  [FFIAny.tensor ⟨4096, ⟨1, 0⟩, ⟨2, 32, 1⟩, [4], some [1], 0⟩]

/-- A trivial echo local session (reply == request payload, FIFO):
the concrete `BcastSessionI` instance used to exercise the relay. -/
def echoSession : BcastSessionI (List (List FFIAny)) :=
  ⟨fun s _ a => s ++ [a], fun s _ => (s.headD [], s.drop 1), fun s a => s ++ [a], fun s => s⟩

/-! ## Byte-primitive lemmas -/

theorem leBytes_length (k n : Nat) : (leBytes k n).length = k := by
  induction k generalizing n with
  | zero => rfl
  | succ k ih => simp [leBytes, ih]

theorem lebValue_leBytes (k n : Nat) : lebValue (leBytes k n) = n % 256 ^ k := by
  induction k generalizing n with
  | zero => simp [leBytes, lebValue, Nat.mod_one]
  | succ k ih =>
    simp only [leBytes, lebValue, ih]
    rw [pow_succ', Nat.mod_mul]


theorem readN_of_length (k : Nat) (bs r : List Nat) (h : bs.length = k) :
    readN k (bs ++ r) = .ok (bs, r) := by
  subst h
  simp [readN, List.take_left, List.drop_left]

theorem readU_leBytes (k n : Nat) (r : List Nat) (h : n < 256 ^ k) :
    readU k (leBytes k n ++ r) = .ok (n, r) := by
  unfold readU
  rw [readN_of_length k _ r (leBytes_length k n)]
  simp [lebValue_leBytes, Nat.mod_eq_of_lt h]

theorem readU8_leBytes (n : Nat) (r : List Nat) (h : n < 2 ^ 64) :
    readU 8 (leBytes 8 n ++ r) = .ok (n, r) := by
  have h8 : (256 : Nat) ^ 8 = 2 ^ 64 := by norm_num
  exact readU_leBytes 8 n r (by omega)

theorem readI_i64Bytes (v : Int) (r : List Nat) (h1 : -(2 ^ 63) ≤ v) (h2 : v < 2 ^ 63) :
    readI 8 (i64Bytes v ++ r) = .ok (v, r) := by
  have h1' : -(9223372036854775808 : Int) ≤ v := by norm_num at h1; exact h1
  have h2' : v < 9223372036854775808 := by norm_num at h2; exact h2
  have hM : ((2 : Int) ^ (8 * 8)) = 18446744073709551616 := by norm_num
  unfold i64Bytes iBytes
  rw [hM]
  have hnn : (0 : Int) ≤ v % 18446744073709551616 := by omega
  have hv : ((v % 18446744073709551616).toNat : Int) = v % 18446744073709551616 :=
    Int.toNat_of_nonneg hnn
  have hmlt : (v % 18446744073709551616).toNat < 256 ^ 8 := by
    have hp : (256 : Nat) ^ 8 = 18446744073709551616 := by norm_num
    omega
  unfold readI
  rw [readU_leBytes 8 _ r hmlt]
  have hts : toSigned (8 * 8) (v % 18446744073709551616).toNat = v := by
    unfold toSigned
    have e1 : (2 : Nat) ^ (8 * 8 - 1) = 9223372036854775808 := by norm_num
    have e2 : ((2 : Int) ^ (8 * 8)) = 18446744073709551616 := by norm_num
    rw [e1, e2]
    split <;> omega
  simp [hts]

theorem readI_i32Bytes (v : Int) (r : List Nat) (h1 : -(2 ^ 31) ≤ v) (h2 : v < 2 ^ 31) :
    readI 4 (i32Bytes v ++ r) = .ok (v, r) := by
  have h1' : -(2147483648 : Int) ≤ v := by norm_num at h1; exact h1
  have h2' : v < 2147483648 := by norm_num at h2; exact h2
  have hM : ((2 : Int) ^ (8 * 4)) = 4294967296 := by norm_num
  unfold i32Bytes iBytes
  rw [hM]
  have hnn : (0 : Int) ≤ v % 4294967296 := by omega
  have hv : ((v % 4294967296).toNat : Int) = v % 4294967296 :=
    Int.toNat_of_nonneg hnn
  have hmlt : (v % 4294967296).toNat < 256 ^ 4 := by
    have hp : (256 : Nat) ^ 4 = 4294967296 := by norm_num
    omega
  unfold readI
  rw [readU_leBytes 4 _ r hmlt]
  have hts : toSigned (8 * 4) (v % 4294967296).toNat = v := by
    unfold toSigned
    have e1 : (2 : Nat) ^ (8 * 4 - 1) = 2147483648 := by norm_num
    have e2 : ((2 : Int) ^ (8 * 4)) = 4294967296 := by norm_num
    rw [e1, e2]
    split <;> omega
  simp [hts]

theorem exbind_ok {ε α β : Type} (a : α) (f : α → Except ε β) :
    (Except.ok a : Except ε α) >>= f = f a := rfl

theorem exbind_error {ε α β : Type} (e : ε) (f : α → Except ε β) :
    (Except.error e : Except ε α) >>= f = .error e := rfl

theorem readDevice_deviceBytes (d : DLDevice) (h : wfDevice d = true) (x : List Nat) :
    readDevice (deviceBytes d ++ x) = .ok (d, x) := by
  simp only [wfDevice, int32RangeB, Bool.and_eq_true, decide_eq_true_eq] at h
  obtain ⟨⟨h1, h2⟩, h3, h4⟩ := h
  unfold readDevice deviceBytes
  rw [List.append_assoc, readI_i32Bytes _ _ h1 h2, exbind_ok]
  simp only []
  rw [readI_i32Bytes _ _ h3 h4, exbind_ok]

theorem readDtype_dtypeBytes (d : DLDataType) (h : wfDtype d = true) (x : List Nat) :
    readDtype (dtypeBytes d ++ x) = .ok (d, x) := by
  simp only [wfDtype, Bool.and_eq_true, decide_eq_true_eq] at h
  obtain ⟨⟨h1, h2⟩, h3⟩ := h
  have e1 : d.code < 256 ^ 1 := by omega
  have e2 : d.bits < 256 ^ 1 := by omega
  have e3 : d.lanes < 256 ^ 2 := by norm_num; omega
  unfold readDtype dtypeBytes
  rw [List.append_assoc, List.append_assoc, readU_leBytes 1 _ _ e1, exbind_ok]
  simp only []
  rw [readU_leBytes 1 _ _ e2, exbind_ok]
  simp only []
  rw [readU_leBytes 2 _ _ e3, exbind_ok]

theorem readI64List_flatMap (l : List Int) (h : l.all int64RangeB = true) (x : List Nat) :
    readI64List l.length (l.flatMap i64Bytes ++ x) = .ok (l, x) := by
  induction l with
  | nil => simp [readI64List]
  | cons v vs ih =>
    simp only [List.all_cons, Bool.and_eq_true] at h
    obtain ⟨hv, hvs⟩ := h
    simp only [int64RangeB, Bool.and_eq_true, decide_eq_true_eq] at hv
    simp only [List.flatMap_cons, List.length_cons, List.append_assoc]
    unfold readI64List
    rw [readI_i64Bytes v _ hv.1 hv.2, exbind_ok]
    simp only []
    rw [ih hvs, exbind_ok]

theorem receiveDLTensor_sendDLTensor (t : DLTensor) (h : wfTensor t = true) (x : List Nat) :
    (sendDLTensor t).2 = Option.none ∧
    receiveDLTensor ((sendDLTensor t).1 ++ x) = .ok (t, x) := by
  simp only [wfTensor, Bool.and_eq_true, decide_eq_true_eq,
    Option.isNone_iff_eq_none] at h
  obtain ⟨⟨⟨⟨⟨⟨hdata, hdev⟩, hdt⟩, hlen⟩, hsh⟩, hstr⟩, hoff⟩ := h
  obtain ⟨data, dev, dt, shape, strides, off⟩ := t
  simp only at hstr hsh hdata hoff hdev hdt hlen
  subst hstr
  have hlen1 : -(2 ^ 31) ≤ (shape.length : Int) := by
    have : (0 : Int) ≤ (shape.length : Int) := Int.natCast_nonneg _
    omega
  have hlen2 : (shape.length : Int) < 2 ^ 31 := by exact_mod_cast hlen
  have hnat : ((shape.length : Int)).toNat = shape.length := Int.toNat_natCast _
  constructor
  · simp [sendDLTensor]
  · unfold sendDLTensor receiveDLTensor
    simp only [List.append_assoc]
    rw [readU8_leBytes _ _ hdata, exbind_ok]
    simp only []
    rw [readDevice_deviceBytes dev hdev, exbind_ok]
    simp only []
    rw [readI_i32Bytes _ _ hlen1 hlen2, exbind_ok]
    simp only []
    rw [readDtype_dtypeBytes dt hdt, exbind_ok]
    simp only [hnat]
    rw [readI64List_flatMap shape hsh, exbind_ok]
    simp only []
    rw [readU8_leBytes _ _ hoff, exbind_ok]

theorem recvArgPayload_none (s : List Nat) :
    recvArgPayload tiNone s = .ok (FFIAny.none, s) := rfl

theorem recvArgPayload_bool (s : List Nat) :
    recvArgPayload tiBool s = (do
      let (v, s) ← readI 8 s
      .ok (FFIAny.bool v, s)) := rfl

theorem recvArgPayload_int (s : List Nat) :
    recvArgPayload tiInt s = (do
      let (v, s) ← readI 8 s
      .ok (FFIAny.int v, s)) := rfl

theorem recvArgPayload_float (s : List Nat) :
    recvArgPayload tiFloat s = (do
      let (v, s) ← readI 8 s
      .ok (FFIAny.float v, s)) := rfl

theorem recvArgPayload_opaquePtr (s : List Nat) :
    recvArgPayload tiOpaquePtr s = (do
      let (h, s) ← readU 8 s
      .ok (FFIAny.opaquePtr h, s)) := rfl

theorem recvArgPayload_dataType (s : List Nat) :
    recvArgPayload tiDataType s = (do
      let (d, s) ← readDtype s
      let (_padding, s) ← readI 4 s
      .ok (FFIAny.dataType d, s)) := rfl

theorem recvArgPayload_device (s : List Nat) :
    recvArgPayload tiDevice s = (do
      let (d, s) ← readDevice s
      .ok (FFIAny.device d, s)) := rfl

theorem recvArgPayload_rawStr (s : List Nat) :
    recvArgPayload tiRawStr s = (do
      let (len, s) ← readU 8 s
      let (str, s) ← readN len s
      .ok (FFIAny.rawStr str, s)) := rfl

theorem recvArgPayload_byteArr (s : List Nat) :
    recvArgPayload tiByteArrayPtr s = (do
      let (len, s) ← readU 8 s
      let (bytes, s) ← readN len s
      .ok (FFIAny.byteArr bytes, s)) := rfl

theorem recvArgPayload_tensor (s : List Nat) :
    recvArgPayload tiDLTensorPtr s = (do
      let (arr, s) ← receiveDLTensor s
      .ok (FFIAny.tensor arr, s)) := rfl

theorem recvArgs_succ (n : Nat) (s : List Nat) :
    recvArgs (n + 1) s = (do
      let (t, s) ← readI 4 s
      let (a, s) ← recvArgPayload t s
      let (rest, s) ← recvArgs n s
      .ok (a :: rest, s)) := rfl


/-- Decoding one encoded argument off the front of the stream recovers
the argument and hands the tail to the remaining iterations. -/
theorem recvArgs_succ_sendArg (cm : Bool) (n : Nat) (a : FFIAny) (h : wfArg a = true)
    (x : List Nat) :
    (sendArg cm a).2 = Option.none ∧
    recvArgs (n + 1) ((sendArg cm a).1 ++ x) =
      (do
        let (rest, s) ← recvArgs n x
        .ok (a :: rest, s)) := by
  cases a with
  | none =>
    refine ⟨rfl, ?_⟩
    show recvArgs (n + 1) (i32Bytes tiNone ++ x) = _
    rw [recvArgs_succ]
    rw [readI_i32Bytes _ _ (by norm_num [tiNone]) (by norm_num [tiNone]), exbind_ok]
    simp only []
    rw [recvArgPayload_none, exbind_ok]
  | bool v =>
    simp only [wfArg, int64RangeB, Bool.and_eq_true, decide_eq_true_eq] at h
    refine ⟨rfl, ?_⟩
    show recvArgs (n + 1) ((i32Bytes tiBool ++ i64Bytes v) ++ x) = _
    rw [recvArgs_succ]
    rw [List.append_assoc, readI_i32Bytes _ _ (by norm_num [tiBool]) (by norm_num [tiBool]),
      exbind_ok]
    simp only []
    rw [recvArgPayload_bool, readI_i64Bytes v _ h.1 h.2, exbind_ok, exbind_ok]
  | int v =>
    simp only [wfArg, int64RangeB, Bool.and_eq_true, decide_eq_true_eq] at h
    refine ⟨rfl, ?_⟩
    show recvArgs (n + 1) ((i32Bytes tiInt ++ i64Bytes v) ++ x) = _
    rw [recvArgs_succ]
    rw [List.append_assoc, readI_i32Bytes _ _ (by norm_num [tiInt]) (by norm_num [tiInt]),
      exbind_ok]
    simp only []
    rw [recvArgPayload_int, readI_i64Bytes v _ h.1 h.2, exbind_ok, exbind_ok]
  | float v =>
    simp only [wfArg, int64RangeB, Bool.and_eq_true, decide_eq_true_eq] at h
    refine ⟨rfl, ?_⟩
    show recvArgs (n + 1) ((i32Bytes tiFloat ++ i64Bytes v) ++ x) = _
    rw [recvArgs_succ]
    rw [List.append_assoc, readI_i32Bytes _ _ (by norm_num [tiFloat]) (by norm_num [tiFloat]),
      exbind_ok]
    simp only []
    rw [recvArgPayload_float, readI_i64Bytes v _ h.1 h.2, exbind_ok, exbind_ok]
  | opaquePtr hd =>
    simp only [wfArg, decide_eq_true_eq] at h
    refine ⟨rfl, ?_⟩
    show recvArgs (n + 1) ((i32Bytes tiOpaquePtr ++ leBytes 8 hd) ++ x) = _
    rw [recvArgs_succ]
    rw [List.append_assoc,
      readI_i32Bytes _ _ (by norm_num [tiOpaquePtr]) (by norm_num [tiOpaquePtr]), exbind_ok]
    simp only []
    rw [recvArgPayload_opaquePtr, readU8_leBytes _ _ h, exbind_ok, exbind_ok]
  | dataType d =>
    refine ⟨rfl, ?_⟩
    show recvArgs (n + 1) ((i32Bytes tiDataType ++ dtypeBytes d ++ i32Bytes 0) ++ x) = _
    rw [recvArgs_succ]
    rw [List.append_assoc, List.append_assoc,
      readI_i32Bytes _ _ (by norm_num [tiDataType]) (by norm_num [tiDataType]), exbind_ok]
    simp only []
    rw [recvArgPayload_dataType, readDtype_dtypeBytes d h, exbind_ok]
    simp only []
    rw [readI_i32Bytes _ _ (by norm_num) (by norm_num), exbind_ok, exbind_ok]
  | device d =>
    refine ⟨rfl, ?_⟩
    show recvArgs (n + 1) ((i32Bytes tiDevice ++ deviceBytes d) ++ x) = _
    rw [recvArgs_succ]
    rw [List.append_assoc,
      readI_i32Bytes _ _ (by norm_num [tiDevice]) (by norm_num [tiDevice]), exbind_ok]
    simp only []
    rw [recvArgPayload_device, readDevice_deviceBytes d h, exbind_ok, exbind_ok]
  | func hd => simp [wfArg] at h
  | module hd => simp [wfArg] at h
  | ndarray => simp [wfArg] at h
  | tensor t =>
    have ht := receiveDLTensor_sendDLTensor t h x
    constructor
    · show (sendDLTensor t).2 = Option.none
      exact ht.1
    · show recvArgs (n + 1) ((i32Bytes tiDLTensorPtr ++ (sendDLTensor t).1) ++ x) = _
      rw [recvArgs_succ]
      rw [List.append_assoc,
        readI_i32Bytes _ _ (by norm_num [tiDLTensorPtr]) (by norm_num [tiDLTensorPtr]),
        exbind_ok]
      simp only []
      rw [recvArgPayload_tensor, ht.2, exbind_ok, exbind_ok]
  | rawStr s =>
    simp only [wfArg, Bool.and_eq_true, decide_eq_true_eq] at h
    refine ⟨rfl, ?_⟩
    show recvArgs (n + 1) ((i32Bytes tiRawStr ++ leBytes 8 s.length ++ s) ++ x) = _
    rw [recvArgs_succ]
    rw [List.append_assoc, List.append_assoc,
      readI_i32Bytes _ _ (by norm_num [tiRawStr]) (by norm_num [tiRawStr]), exbind_ok]
    simp only []
    rw [recvArgPayload_rawStr, readU8_leBytes _ _ h.1, exbind_ok]
    simp only []
    rw [readN_of_length s.length s x rfl, exbind_ok, exbind_ok]
  | byteArr b =>
    simp only [wfArg, Bool.and_eq_true, decide_eq_true_eq] at h
    refine ⟨rfl, ?_⟩
    show recvArgs (n + 1) ((i32Bytes tiByteArrayPtr ++ leBytes 8 b.length ++ b) ++ x) = _
    rw [recvArgs_succ]
    rw [List.append_assoc, List.append_assoc,
      readI_i32Bytes _ _ (by norm_num [tiByteArrayPtr]) (by norm_num [tiByteArrayPtr]),
      exbind_ok]
    simp only []
    rw [recvArgPayload_byteArr, readU8_leBytes _ _ h.1, exbind_ok]
    simp only []
    rw [readN_of_length b.length b x rfl, exbind_ok, exbind_ok]

theorem sendArgs_cons_ok (cm : Bool) (a : FFIAny) (as : List FFIAny)
    (h : (sendArg cm a).2 = Option.none) :
    sendArgs cm (a :: as) = ((sendArg cm a).1 ++ (sendArgs cm as).1, (sendArgs cm as).2) := by
  simp only [sendArgs, h]

theorem recvArgs_sendArgs (cm : Bool) (args : List FFIAny) (h : args.all wfArg = true)
    (x : List Nat) :
    (sendArgs cm args).2 = Option.none ∧
    recvArgs args.length ((sendArgs cm args).1 ++ x) = .ok (args, x) := by
  induction args generalizing x with
  | nil => exact ⟨rfl, rfl⟩
  | cons a as ih =>
    simp only [List.all_cons, Bool.and_eq_true] at h
    obtain ⟨ha, has⟩ := h
    have hstep := recvArgs_succ_sendArg cm as.length a ha ((sendArgs cm as).1 ++ x)
    have ihx := ih has x
    rw [sendArgs_cons_ok cm a as hstep.1]
    refine ⟨ihx.1, ?_⟩
    simp only [List.length_cons, List.append_assoc]
    rw [hstep.2, ihx.2, exbind_ok]

theorem recvPackedSeq_sendPackedSeq (args : List FFIAny) (cm : Bool)
    (h : wfSeq args = true) (x : List Nat) :
    (sendPackedSeq args cm).2 = Option.none ∧
    recvPackedSeq ((sendPackedSeq args cm).1 ++ x) = .ok (args, x) := by
  simp only [wfSeq, Bool.and_eq_true, decide_eq_true_eq] at h
  obtain ⟨hlen, hall⟩ := h
  have hr := recvArgs_sendArgs cm args hall x
  refine ⟨hr.1, ?_⟩
  have hb1 : -(2 ^ 31) ≤ ((args.length : Nat) : Int) := by
    have : (0 : Int) ≤ ((args.length : Nat) : Int) := Int.natCast_nonneg _
    omega
  have hb2 : ((args.length : Nat) : Int) < 2 ^ 31 := by exact_mod_cast hlen
  show recvPackedSeq ((i32Bytes (args.length : Int) ++ (sendArgs cm args).1) ++ x) = _
  unfold recvPackedSeq
  rw [List.append_assoc, readI_i32Bytes _ _ hb1 hb2, exbind_ok]
  simp only []
  cases args with
  | nil => simp [sendArgs]
  | cons a as =>
    have hne : (((a :: as).length : Nat) : Int) ≠ 0 := by
      simp [List.length_cons]
      omega
    rw [if_neg hne, Int.toNat_natCast]
    exact hr.2

/-- C1: codec round-trip — for every packed sequence of representable
argument values (none, bool, int, float, device, dtype, opaque handle,
dense tensor descriptor, raw string, byte buffer), `RecvPackedSeq`
applied to the bytes produced by `SendPackedSeq` (in either client mode)
succeeds without error, consumes exactly the bytes that were written, and
returns a sequence equal to the original — bit-exact for numeric, string
and byte-buffer values, handle-equal with identical metadata for
opaque-handle and tensor-descriptor values. -/
theorem codec_roundtrip (args : List FFIAny) (client_mode : Bool) (rest : List Nat)
    (h : wfSeq args = true) :
    (sendPackedSeq args client_mode).2 = Option.none ∧
    recvPackedSeq ((sendPackedSeq args client_mode).1 ++ rest) = .ok (args, rest) :=
  recvPackedSeq_sendPackedSeq args client_mode h rest

/-- One representative value of every representable argument kind. -/
def exampleSeq : List FFIAny :=
  [FFIAny.none, FFIAny.bool 1, FFIAny.int (-5), FFIAny.float 4614256656552045848,
   FFIAny.opaquePtr 81985529216486895, FFIAny.dataType ⟨2, 32, 1⟩,
   FFIAny.device ⟨2, 0⟩,
   FFIAny.tensor ⟨140000000, ⟨2, 0⟩, ⟨2, 32, 1⟩, [2, 3], Option.none, 64⟩,
   FFIAny.rawStr [104, 105], FFIAny.byteArr [0, 255, 7]]

/-- Witness for C1 at a concrete sequence covering every kind. -/
theorem codec_roundtrip_witness :
    wfSeq exampleSeq = true ∧
    ((sendPackedSeq exampleSeq true).2 = Option.none ∧
      recvPackedSeq ((sendPackedSeq exampleSeq true).1 ++ [9, 9]) = .ok (exampleSeq, [9, 9])) :=
  ⟨by decide, codec_roundtrip exampleSeq true [9, 9] (by decide)⟩

theorem iBytes_length (k : Nat) (v : Int) : (iBytes k v).length = k := by
  simp [iBytes, leBytes_length]

theorem flatMap_i64Bytes_length (l : List Int) : (l.flatMap i64Bytes).length = 8 * l.length := by
  induction l with
  | nil => simp
  | cons v vs ih =>
    simp only [List.flatMap_cons, List.length_append, List.length_cons, ih]
    have : (i64Bytes v).length = 8 := iBytes_length 8 v
    omega

theorem sum_map_const_nat {α : Type} (l : List α) (c : Nat) :
    (l.map fun _ => c).sum = c * l.length := by
  induction l with
  | nil => simp
  | cons a as ih =>
    simp only [List.map_cons, List.sum_cons, ih, List.length_cons, Nat.mul_succ]
    omega

theorem sendArg_length (cm : Bool) (a : FFIAny) (h : wfArg a = true) :
    (sendArg cm a).1.length = 4 + numBytesPayload a := by
  cases a with
  | none => simp [sendArg, numBytesPayload, FFIAny.typeIndex, iBytes_length, i32Bytes]
  | bool v =>
    simp [sendArg, numBytesPayload, iBytes_length, i32Bytes, i64Bytes]
  | int v => simp [sendArg, numBytesPayload, iBytes_length, i32Bytes, i64Bytes]
  | float v => simp [sendArg, numBytesPayload, iBytes_length, i32Bytes, i64Bytes]
  | opaquePtr hd => simp [sendArg, numBytesPayload, iBytes_length, i32Bytes, leBytes_length]
  | dataType d =>
    simp [sendArg, numBytesPayload, iBytes_length, i32Bytes, dtypeBytes, leBytes_length]
  | device d =>
    simp [sendArg, numBytesPayload, iBytes_length, i32Bytes, deviceBytes]
  | func hd => simp [wfArg] at h
  | module hd => simp [wfArg] at h
  | ndarray => simp [wfArg] at h
  | tensor t =>
    simp only [wfArg, wfTensor, Bool.and_eq_true, Option.isNone_iff_eq_none] at h
    obtain ⟨⟨⟨⟨⟨⟨_, _⟩, _⟩, _⟩, _⟩, hstr⟩, _⟩ := h
    simp [sendArg, numBytesPayload, sendDLTensor, hstr, iBytes_length, i32Bytes,
      deviceBytes, dtypeBytes, leBytes_length, flatMap_i64Bytes_length]
    have e : (List.map (List.length ∘ i64Bytes) t.shape) = t.shape.map fun _ => 8 := by
      simp [Function.comp_def, i64Bytes, iBytes_length]
    rw [e, sum_map_const_nat]
    ring
  | rawStr s =>
    simp [sendArg, numBytesPayload, iBytes_length, i32Bytes, leBytes_length]
  | byteArr b =>
    simp [sendArg, numBytesPayload, iBytes_length, i32Bytes, leBytes_length]

theorem sendArgs_length (cm : Bool) (args : List FFIAny) (h : args.all wfArg = true) :
    (sendArgs cm args).1.length = (args.map (fun a => 4 + numBytesPayload a)).sum := by
  induction args with
  | nil => rfl
  | cons a as ih =>
    simp only [List.all_cons, Bool.and_eq_true] at h
    obtain ⟨ha, has⟩ := h
    have hz : (sendArg cm a).2 = Option.none := (recvArgs_succ_sendArg cm 0 a ha []).1
    rw [sendArgs_cons_ok cm a as hz]
    simp [List.length_append, sendArg_length cm a ha, ih has]

/-- The byte count precomputed by `PackedSeqGetNumBytes` equals the number
of bytes `SendPackedSeq` subsequently writes for the same arguments. -/
theorem packedSeqGetNumBytes_eq_length (args : List FFIAny) (cm : Bool)
    (h : wfSeq args = true) :
    packedSeqGetNumBytes args cm = (sendPackedSeq args cm).1.length := by
  simp only [wfSeq, Bool.and_eq_true, decide_eq_true_eq] at h
  simp [packedSeqGetNumBytes, sendPackedSeq, iBytes_length, i32Bytes,
    sendArgs_length cm args h.2]

/-- C2: packet framing — `ReturnPackedSeq`, `ReturnException` and
`ReturnVoid` each produce exactly one packet
`[u64 total_length][command_code][payload]` whose leading `u64` word
equals the exact number of bytes that follow it, and for
`ReturnPackedSeq` the byte count precomputed by `PackedSeqGetNumBytes`
equals the number of bytes `SendPackedSeq` subsequently writes. -/
theorem return_packet_framing (args : List FFIAny) (msg : List Nat)
    (hargs : wfMsg args = true) (hmsg : 4 + 4 + 4 + 8 + msg.length < 2 ^ 64) :
    ((returnPackedSeq args).2 = Option.none ∧
      lebValue ((returnPackedSeq args).1.take 8) = ((returnPackedSeq args).1.drop 8).length ∧
      packedSeqGetNumBytes args false = (sendPackedSeq args false).1.length) ∧
    lebValue ((returnException msg).take 8) = ((returnException msg).drop 8).length ∧
    lebValue (returnVoid.take 8) = (returnVoid.drop 8).length := by
  simp only [wfMsg, Bool.and_eq_true, decide_eq_true_eq] at hargs
  obtain ⟨hwf, hbound⟩ := hargs
  have herr : (sendPackedSeq args false).2 = Option.none :=
    (recvPackedSeq_sendPackedSeq args false hwf []).1
  have hlen := packedSeqGetNumBytes_eq_length args false hwf
  have h2p : (256 : Nat) ^ 8 = 2 ^ 64 := by norm_num
  refine ⟨⟨?_, ?_, hlen⟩, ?_, ?_⟩
  · simp [returnPackedSeq, herr]
  · simp only [returnPackedSeq, herr, List.append_assoc]
    rw [List.take_left' (leBytes_length 8 _), List.drop_left' (leBytes_length 8 _)]
    rw [lebValue_leBytes, h2p, Nat.mod_eq_of_lt hbound]
    simp [iBytes_length, i32Bytes, hlen]
  · simp only [returnException, List.append_assoc]
    rw [List.take_left' (leBytes_length 8 _), List.drop_left' (leBytes_length 8 _)]
    rw [lebValue_leBytes, h2p, Nat.mod_eq_of_lt (by omega)]
    simp [iBytes_length, i32Bytes, leBytes_length]
    omega
  · decide

/-- Witness for C2 at a concrete one-argument reply and message. -/
theorem return_packet_framing_witness :
    wfMsg [FFIAny.int 7] = true ∧
    (4 + 4 + 4 + 8 + ([98, 111, 111, 109] : List Nat).length < 2 ^ 64) ∧
    (((returnPackedSeq [FFIAny.int 7]).2 = Option.none ∧
      lebValue ((returnPackedSeq [FFIAny.int 7]).1.take 8) =
        ((returnPackedSeq [FFIAny.int 7]).1.drop 8).length ∧
      packedSeqGetNumBytes [FFIAny.int 7] false =
        (sendPackedSeq [FFIAny.int 7] false).1.length) ∧
    lebValue ((returnException [98, 111, 111, 109]).take 8) =
      ((returnException [98, 111, 111, 109]).drop 8).length ∧
    lebValue (returnVoid.take 8) = (returnVoid.drop 8).length) :=
  ⟨by decide, by decide,
    return_packet_framing [FFIAny.int 7] [98, 111, 111, 109] (by decide) (by decide)⟩

theorem returnPackedSeq_split (args : List FFIAny) (h : wfSeq args = true) :
    (returnPackedSeq args).1 =
      leBytes 8 (4 + packedSeqGetNumBytes args false) ++
        (i32Bytes RPCCode.kReturn.toInt ++ (sendPackedSeq args false).1) ∧
    (i32Bytes RPCCode.kReturn.toInt ++ (sendPackedSeq args false).1).length =
      4 + packedSeqGetNumBytes args false := by
  have herr : (sendPackedSeq args false).2 = Option.none :=
    (recvPackedSeq_sendPackedSeq args false h []).1
  constructor
  · simp [returnPackedSeq, herr, List.append_assoc]
  · simp [iBytes_length, i32Bytes, packedSeqGetNumBytes_eq_length args false h]

theorem mqRecvN_succ (n : Nat) (q : MQueue) :
    mqRecvN (n + 1) q = (do
      let (a, q1) ← mqRecv q
      let (rest, q2) ← mqRecvN n q1
      .ok (a :: rest, q2)) := rfl

theorem mqRecv_packet (args : List FFIAny) (h : wfMsg args = true) (rest : List Nat)
    (c : Nat) :
    mqRecv ⟨(returnPackedSeq args).1 ++ rest, c + 1⟩ = .ok (args, ⟨rest, c⟩) := by
  simp only [wfMsg, Bool.and_eq_true, decide_eq_true_eq] at h
  obtain ⟨hwf, hbound⟩ := h
  have hsp := returnPackedSeq_split args hwf
  have hrt : recvPackedSeq (sendPackedSeq args false).1 = .ok (args, []) := by
    have := (recvPackedSeq_sendPackedSeq args false hwf []).2
    rwa [List.append_nil] at this
  unfold mqRecv
  rw [if_neg (Nat.succ_ne_zero c)]
  rw [hsp.1, List.append_assoc, readU8_leBytes _ _ hbound]
  simp only []
  rw [readN_of_length _ _ _ hsp.2]
  simp only []
  rw [readI_i32Bytes _ _ (by norm_num [RPCCode.toInt]) (by norm_num [RPCCode.toInt]), exbind_ok]
  simp only []
  rw [hrt, exbind_ok]
  simp

theorem mqSendAll_ring (ss : List (List FFIAny)) (q : MQueue) :
    mqSendAll q ss =
      ⟨q.ring ++ ss.flatMap (fun s => (returnPackedSeq s).1), q.msg_cnt + ss.length⟩ := by
  induction ss generalizing q with
  | nil => simp [mqSendAll]
  | cons s rest ih =>
    simp only [mqSendAll, List.foldl_cons] at ih ⊢
    rw [ih]
    simp [mqSend, List.flatMap_cons, List.append_assoc]
    omega

theorem mqRecvN_packets (ss : List (List FFIAny)) (h : ss.all wfMsg = true) :
    mqRecvN ss.length ⟨ss.flatMap (fun s => (returnPackedSeq s).1), ss.length⟩ =
      .ok (ss, ⟨[], 0⟩) := by
  induction ss with
  | nil => rfl
  | cons s rest ih =>
    simp only [List.all_cons, Bool.and_eq_true] at h
    simp only [List.length_cons, List.flatMap_cons]
    rw [mqRecvN_succ, mqRecv_packet s h.1 _ rest.length, exbind_ok]
    simp only []
    rw [ih h.2, exbind_ok]

/-- C3: FIFO exactly-once delivery on one direction of the in-process
message queue — `N` sends followed by `N` receives return exactly the `N`
sent packed sequences in send order, leaving the ring buffer empty; each
`Recv` dequeues exactly one complete framed packet (the decoder sees the
packet body alone, never a partial packet or bytes of a second packet). -/
theorem message_queue_fifo (ss : List (List FFIAny)) (hss : ss.all wfMsg = true)
    (args : List FFIAny) (hargs : wfMsg args = true) (rest : List Nat) (c : Nat) :
    mqRecv ⟨(returnPackedSeq args).1 ++ rest, c + 1⟩ = .ok (args, ⟨rest, c⟩) ∧
    mqRecvN ss.length (mqSendAll ⟨[], 0⟩ ss) = .ok (ss, ⟨[], 0⟩) := by
  refine ⟨mqRecv_packet args hargs rest c, ?_⟩
  rw [mqSendAll_ring ss ⟨[], 0⟩]
  simpa using mqRecvN_packets ss hss

/-- Witness for C3: three messages sent, three received, in order. -/
theorem message_queue_fifo_witness :
    ([[FFIAny.int 1], [FFIAny.rawStr [104]], []].all wfMsg = true) ∧
    (wfMsg [FFIAny.bool 1] = true) ∧
    (mqRecv ⟨(returnPackedSeq [FFIAny.bool 1]).1 ++ [7], 2 + 1⟩ =
      .ok ([FFIAny.bool 1], ⟨[7], 2⟩) ∧
    mqRecvN 3 (mqSendAll ⟨[], 0⟩ [[FFIAny.int 1], [FFIAny.rawStr [104]], []]) =
      .ok ([[FFIAny.int 1], [FFIAny.rawStr [104]], []], ⟨[], 0⟩)) :=
  ⟨by decide, by decide,
    message_queue_fifo [[FFIAny.int 1], [FFIAny.rawStr [104]], []] (by decide)
      [FFIAny.bool 1] (by decide) [7] 2⟩

/-- C5: topology validation — constructing a threaded session fails
exactly when `num_workers % num_groups ≠ 0`; in particular 6 workers / 4
groups fails while 6 workers / 3 groups succeeds with workers 0..5, and
the global worker id assigned by `socket_session_init_workers` is
consistent with `node_id = worker_id / workers_per_node`. -/
theorem threaded_session_topology :
    (∀ num_workers num_group : Int,
      (threadedSession num_workers num_group).isOk = true ↔ num_workers % num_group = 0) ∧
    (threadedSession 6 4).isOk = false ∧
    threadedSession 6 3 = .ok [⟨0, 6, 3⟩, ⟨1, 6, 3⟩, ⟨2, 6, 3⟩, ⟨3, 6, 3⟩, ⟨4, 6, 3⟩, ⟨5, 6, 3⟩] ∧
    (∀ (num_nodes num_groups num_workers_per_node node_id : Int) (w : DiscoWorkerId),
      0 ≤ w.worker_id → w.worker_id < num_workers_per_node →
      (socketSessionInitWorkers num_nodes node_id num_groups num_workers_per_node w).worker_id /
        num_workers_per_node = node_id) := by
  refine ⟨?_, ?_, by rfl, ?_⟩
  · intro n g
    unfold threadedSession
    by_cases h : n % g = 0
    · simp [h, Except.isOk, Except.toBool]
    · simp [h, Except.isOk, Except.toBool]
  · simp [threadedSession, Except.isOk, Except.toBool]
  · intro nn ng wpn nid w h0 hlt
    have hwpn : 0 < wpn := lt_of_le_of_lt h0 hlt
    show (w.worker_id + nid * wpn) / wpn = nid
    rw [Int.add_mul_ediv_right _ _ (by omega : wpn ≠ 0)]
    rw [Int.ediv_eq_zero_of_lt h0 hlt]
    omega

/-- Witness for C5 at the concrete topologies named by the spec. -/
theorem threaded_session_topology_witness :
    ((threadedSession 6 4).isOk = true ↔ (6 : Int) % 4 = 0) ∧
    (socketSessionInitWorkers 2 1 3 3 ⟨2, 3, 3⟩).worker_id / 3 = 1 :=
  ⟨threaded_session_topology.1 6 4,
    threaded_session_topology.2.2.2 2 3 3 1 ⟨2, 3, 3⟩ (by decide) (by decide)⟩

/-- C6: an unhandled type tag below the generic-object range is a fatal
protocol error — `RecvPackedSeq` raises `kUnknownTypeIndex` and returns
no value; decoding never continues past the unhandled tag. -/
theorem recv_unknown_tag_fatal (t : Int) (rest : List Nat)
    (h1 : t ∉ ([tiNone, tiInt, tiBool, tiFloat, tiOpaquePtr, tiDataType, tiDevice,
                tiDLTensorPtr, tiRawStr, tiByteArrayPtr, tiFunction, tiModule] : List Int))
    (h2 : t < tiStaticObjectBegin) (h3 : -(2 ^ 31) ≤ t) (h4 : t < 2 ^ 31) :
    recvArgPayload t rest = .error (DecErr.status RPCServerStatus.kUnknownTypeIndex) ∧
    recvPackedSeq (i32Bytes 1 ++ i32Bytes t ++ rest) =
      .error (DecErr.status RPCServerStatus.kUnknownTypeIndex) := by
  simp only [List.mem_cons, List.not_mem_nil, or_false, not_or] at h1
  obtain ⟨e0, e1, e2, e3, e4, e5, e6, e7, e8, e9, e10, e11⟩ := h1
  have hpay : recvArgPayload t rest = .error (DecErr.status RPCServerStatus.kUnknownTypeIndex) := by
    unfold recvArgPayload
    rw [if_neg e0, if_neg e2, if_neg e1, if_neg e3, if_neg e4, if_neg e5, if_neg e6,
      if_neg e10, if_neg e11, if_neg e8, if_neg e9, if_neg e7, if_neg (by omega)]
  refine ⟨hpay, ?_⟩
  unfold recvPackedSeq
  rw [List.append_assoc, readI_i32Bytes _ _ (by norm_num) (by norm_num), exbind_ok]
  simp only []
  rw [if_neg (by norm_num : (1 : Int) ≠ 0)]
  show recvArgs (0 + 1) _ = _
  rw [recvArgs_succ, readI_i32Bytes _ _ h3 h4, exbind_ok]
  simp only []
  rw [hpay, exbind_error]

/-- Witness for C6 at tag 10 (first tag past the handled POD range). -/
theorem recv_unknown_tag_fatal_witness :
    ((10 : Int) ∉ ([tiNone, tiInt, tiBool, tiFloat, tiOpaquePtr, tiDataType, tiDevice,
                tiDLTensorPtr, tiRawStr, tiByteArrayPtr, tiFunction, tiModule] : List Int)) ∧
    ((10 : Int) < tiStaticObjectBegin) ∧
    (recvArgPayload 10 [3, 1] = .error (DecErr.status RPCServerStatus.kUnknownTypeIndex) ∧
      recvPackedSeq (i32Bytes 1 ++ i32Bytes 10 ++ [3, 1]) =
        .error (DecErr.status RPCServerStatus.kUnknownTypeIndex)) :=
  ⟨by decide, by decide,
    recv_unknown_tag_fatal 10 [3, 1] (by decide) (by decide) (by decide) (by decide)⟩

theorem sendsOnChannel_range_nil (f : Nat → List FFIAny) (m k : Nat) (hk : m ≤ k) :
    sendsOnChannel k ((List.range m).map fun i => (i, f i)) = [] := by
  unfold sendsOnChannel
  rw [List.filterMap_eq_nil_iff]
  intro p hp
  simp only [List.mem_map, List.mem_range] at hp
  obtain ⟨i, hi, rfl⟩ := hp
  simp only []
  rw [if_neg (by omega)]

theorem sendsOnChannel_range (f : Nat → List FFIAny) (m k : Nat) (hk : k < m) :
    sendsOnChannel k ((List.range m).map fun i => (i, f i)) = [f k] := by
  induction m with
  | zero => omega
  | succ m ih =>
    rw [List.range_succ, List.map_append]
    unfold sendsOnChannel
    rw [List.filterMap_append]
    by_cases h : k = m
    · subst h
      have h1 := sendsOnChannel_range_nil f k k (le_refl k)
      unfold sendsOnChannel at h1
      rw [h1]
      simp
    · have hkm : k < m := by omega
      have h2 := ih hkm
      unfold sendsOnChannel at h2
      rw [h2]
      simp only [List.map_cons, List.map_nil, List.filterMap_cons]
      rw [if_neg (by omega)]
      simp

/-- C7: wire handshake — during construction the controller sends, on
each freshly accepted remote channel `k`, exactly one message before any
other traffic: the tuple `{num_nodes, workers_per_node, num_groups,
node_id = k + 1}` as 4 integer arguments, each carried on the wire as a
native-endian 64-bit integer; the relay's constructor reads exactly this
message first and extracts the four fields in order. -/
theorem socket_handshake_first (num_nodes wpn ng : Int) (k : Nat)
    (rest : List (List FFIAny)) (hk : (k : Int) < num_nodes - 1) :
    sendsOnChannel k (socketSessionCtorSends num_nodes wpn ng) =
      [metadataMsg num_nodes wpn ng ((k : Int) + 1)] ∧
    remoteCtorHandshake (metadataMsg num_nodes wpn ng ((k : Int) + 1) :: rest) =
      .ok ((num_nodes, wpn, ng, (k : Int) + 1), rest) ∧
    (sendPackedSeq (metadataMsg num_nodes wpn ng ((k : Int) + 1)) false).1 =
      i32Bytes 4 ++
        ((i32Bytes tiInt ++ i64Bytes num_nodes) ++ ((i32Bytes tiInt ++ i64Bytes wpn) ++
          ((i32Bytes tiInt ++ i64Bytes ng) ++ (i32Bytes tiInt ++ i64Bytes ((k : Int) + 1))))) := by
  refine ⟨?_, rfl, ?_⟩
  · have hk' : k < (num_nodes - 1).toNat := by omega
    exact sendsOnChannel_range (fun i => metadataMsg num_nodes wpn ng ((i : Int) + 1))
      (num_nodes - 1).toNat k hk'
  · simp [sendPackedSeq, sendArgs, sendArg, FFIAny.typeIndex, metadataMsg,
      List.append_assoc]

/-- Witness for C7 on a 3-node topology, channel index 1. -/
theorem socket_handshake_first_witness :
    ((1 : Int) < 3 - 1) ∧
    (sendsOnChannel 1 (socketSessionCtorSends 3 4 2) = [metadataMsg 3 4 2 2] ∧
      remoteCtorHandshake (metadataMsg 3 4 2 2 :: [[FFIAny.int 9]]) =
        .ok ((3, 4, 2, 2), [[FFIAny.int 9]]) ∧
      (sendPackedSeq (metadataMsg 3 4 2 2) false).1 =
        i32Bytes 4 ++
          ((i32Bytes tiInt ++ i64Bytes 3) ++ ((i32Bytes tiInt ++ i64Bytes 4) ++
            ((i32Bytes tiInt ++ i64Bytes 2) ++ (i32Bytes tiInt ++ i64Bytes 2))))) :=
  ⟨by decide, by
    have h := socket_handshake_first 3 4 2 1 [[FFIAny.int 9]] (by decide)
    norm_num at h ⊢
    exact h⟩

/-- C8: shutdown idempotence — after one `Shutdown()` the remote socket
and channel lists are empty and the listening socket is closed, so a
second `Shutdown()` (or the destructor, which just calls `Shutdown()`)
sends no further shutdown commands, closes nothing, and leaves the
session state unchanged. -/
theorem socket_shutdown_idempotent (s : SocketSessionSt) :
    socketShutdown (socketShutdown s).1 = ((socketShutdown s).1, [ShutdownEvent.finalize]) ∧
    socketSessionDtor (socketShutdown s).1 = ((socketShutdown s).1, [ShutdownEvent.finalize]) :=
  ⟨rfl, rfl⟩

theorem listUpd_comp {α : Type} (l : List α) (i : Nat) (f g : α → α) :
    listUpd (listUpd l i f) i g = listUpd l i (fun x => g (f x)) := by
  induction l generalizing i with
  | nil => rfl
  | cons x xs ih =>
    cases i with
    | zero => rfl
    | succ n => simp [listUpd, ih]

theorem listUpd_getElem {α : Type} (l : List α) (i : Nat) (f : α → α) :
    (listUpd l i f)[i]? = (l[i]?).map f := by
  induction l generalizing i with
  | nil => rfl
  | cons x xs ih =>
    cases i with
    | zero => simp [listUpd]
    | succ n => simp [listUpd, ih]

theorem regLookup_foldl (cs : List DiscoCmd) (regs : List (Int × FFIAny)) (reg : Int)
    (h : ∀ c ∈ cs, cmdWritesReg c reg = false) :
    regLookup (cs.foldl applyCmd regs) reg = regLookup regs reg := by
  induction cs generalizing regs with
  | nil => rfl
  | cons c cs ih =>
    have hc := h c (List.mem_cons_self c cs)
    have hcs : ∀ c' ∈ cs, cmdWritesReg c' reg = false := fun c' hc' =>
      h c' (List.mem_cons_of_mem c hc')
    cases c with
    | writeReg r v =>
      simp only [cmdWritesReg, decide_eq_false_iff_not] at hc
      simp only [List.foldl_cons, applyCmd, regSet]
      rw [ih _ hcs]
      simp only [regLookup]
      rw [if_neg hc]
    | noRegEffect =>
      simp only [List.foldl_cons, applyCmd]
      exact ih _ hcs

/-- C9: register-file consistency through the sync barrier — on a
threaded session, `DebugSetRegister(reg_id, X, worker_id)` followed by
`DebugGetFromRemote(reg_id, worker_id)` returns `X` even when other
commands were queued to that worker in between, provided none of them
writes that register: both debug operations first run the `SyncWorker`
barrier, which drains the worker's pending commands before the register
file is touched. -/
theorem debug_register_sync (s : ThreadedSessionSt) (worker_id : Nat) (reg_id : Int)
    (v : FFIAny) (cs : List DiscoCmd) (hw : worker_id < s.workers.length)
    (hc : ∀ c ∈ cs, cmdWritesReg c reg_id = false) :
    (tsDebugGetFromRemote (tsEnqueue (tsDebugSetRegister s reg_id v worker_id) worker_id cs)
      reg_id worker_id).1 = some v := by
  unfold tsDebugGetFromRemote tsEnqueue tsDebugSetRegister
  simp only [listUpd_comp, listUpd_getElem]
  have hget : s.workers[worker_id]? = some s.workers[worker_id] :=
    List.getElem?_eq_getElem hw
  rw [hget]
  simp only [Option.map_some', syncWorker, List.nil_append]
  rw [regLookup_foldl cs _ reg_id hc]
  simp [regSet, regLookup]

/-- Witness for C9: register 3 on worker 1 of a 2-worker session survives
an interleaved command that writes a different register. -/
theorem debug_register_sync_witness :
    (1 < ([⟨[], []⟩, ⟨[(3, FFIAny.int 0)], [DiscoCmd.writeReg 4 FFIAny.none]⟩] :
        List DiscoWorkerRT).length) ∧
    (∀ c ∈ [DiscoCmd.writeReg 5 (FFIAny.int 9), DiscoCmd.noRegEffect],
      cmdWritesReg c 3 = false) ∧
    (tsDebugGetFromRemote
      (tsEnqueue
        (tsDebugSetRegister
          ⟨[⟨[], []⟩, ⟨[(3, FFIAny.int 0)], [DiscoCmd.writeReg 4 FFIAny.none]⟩]⟩
          3 (FFIAny.int 42) 1)
        1 [DiscoCmd.writeReg 5 (FFIAny.int 9), DiscoCmd.noRegEffect])
      3 1).1 = some (FFIAny.int 42) :=
  ⟨by decide, by decide,
    debug_register_sync ⟨[⟨[], []⟩, ⟨[(3, FFIAny.int 0)], [DiscoCmd.writeReg 4 FFIAny.none]⟩]⟩
      1 3 (FFIAny.int 42) [DiscoCmd.writeReg 5 (FFIAny.int 9), DiscoCmd.noRegEffect]
      (by decide) (by decide)⟩

theorem sendArg_snd_isSome (cm : Bool) (a : FFIAny) :
    (sendArg cm a).2.isSome = offending cm a := by
  cases a with
  | func h => cases cm <;> simp [sendArg, offending]
  | module h => cases cm <;> simp [sendArg, offending]
  | tensor t =>
    cases hs : t.strides <;> simp [sendArg, offending, sendDLTensor, hs]
  | _ => simp [sendArg, offending]

theorem sendArgs_isSome_iff (cm : Bool) (args : List FFIAny) :
    (sendArgs cm args).2.isSome = true ↔ ∃ a ∈ args, offending cm a = true := by
  induction args with
  | nil => simp [sendArgs]
  | cons a as ih =>
    by_cases ha : offending cm a = true
    · have : (sendArg cm a).2.isSome = true := by rw [sendArg_snd_isSome]; exact ha
      obtain ⟨st, hst⟩ := Option.isSome_iff_exists.mp this
      simp only [sendArgs, hst]
      simp only [Option.isSome_some, true_iff]
      exact ⟨a, List.mem_cons_self a as, ha⟩
    · have : (sendArg cm a).2.isSome = false := by
        rw [sendArg_snd_isSome]; exact eq_false_of_ne_true ha
      have hn : (sendArg cm a).2 = Option.none := Option.not_isSome_iff_eq_none.mp (by simp [this])
      rw [sendArgs_cons_ok cm a as hn]
      simp only [List.mem_cons]
      constructor
      · intro h
        obtain ⟨b, hb, hob⟩ := ih.mp h
        exact ⟨b, Or.inr hb, hob⟩
      · rintro ⟨b, hb | hb, hob⟩
        · exact absurd hob (hb ▸ ha)
        · exact ih.mpr ⟨b, hb, hob⟩

/-- C10 counterexample: on a tensor descriptor with non-null strides,
`SendPackedSeq` does raise `kInvalidDLTensorFieldStride`, but it has
already written the tensor's payload bytes (data handle, device, ndim,
dtype, shape — 40 bytes total, not just the 8 bytes of argument count
plus type tag) before the error, contradicting the claim that no payload
bytes are written for the offending argument. -/
theorem send_domain_counterexample :
    (sendPackedSeq stridedTensorArgs false).2 =
      some RPCServerStatus.kInvalidDLTensorFieldStride ∧
    (sendPackedSeq stridedTensorArgs false).1.length = 40 ∧
    (sendPackedSeq stridedTensorArgs false).1 ≠ i32Bytes 1 ++ i32Bytes tiDLTensorPtr := by
  refine ⟨by decide, by decide, by decide⟩

/-- C10 (amended): `SendPackedSeq` raises a fatal error exactly when the
sequence contains an NDArray value, a Function or Module value with
`client_mode = false`, or a tensor descriptor with non-null strides; for
NDArray and Function/Module nothing beyond the type tag is written, while
for a strided tensor the metadata (handle, device, ndim, dtype, shape)
is written before the error is raised; only dense tensor descriptors
complete encoding. -/
theorem send_domain_restriction (args : List FFIAny) (cm : Bool) (t : DLTensor) (h : Nat) :
    ((sendPackedSeq args cm).2.isSome = true ↔ ∃ a ∈ args, offending cm a = true) ∧
    sendArg cm FFIAny.ndarray =
      (i32Bytes tiNDArray, some RPCServerStatus.kInvalidTypeCodeNDArray) ∧
    (cm = false →
      sendArg cm (FFIAny.func h) =
        (i32Bytes tiFunction, some RPCServerStatus.kInvalidTypeCodeObject) ∧
      sendArg cm (FFIAny.module h) =
        (i32Bytes tiModule, some RPCServerStatus.kInvalidTypeCodeObject)) ∧
    (t.strides.isSome = true →
      (sendArg cm (FFIAny.tensor t)).2 = some RPCServerStatus.kInvalidDLTensorFieldStride ∧
      (sendArg cm (FFIAny.tensor t)).1 =
        i32Bytes tiDLTensorPtr ++ (leBytes 8 t.data ++ deviceBytes t.device ++
          i32Bytes (t.shape.length : Int) ++ dtypeBytes t.dtype ++ t.shape.flatMap i64Bytes)) := by
  refine ⟨?_, rfl, ?_, ?_⟩
  · show (sendArgs cm args).2.isSome = true ↔ _
    exact sendArgs_isSome_iff cm args
  · rintro rfl
    exact ⟨rfl, rfl⟩
  · intro hs
    obtain ⟨str, hstr⟩ := Option.isSome_iff_exists.mp hs
    constructor
    · simp [sendArg, sendDLTensor, hstr]
    · simp [sendArg, sendDLTensor, hstr, FFIAny.typeIndex, List.append_assoc]

/-- Witness for C10 (amended) at concrete offending and clean inputs. -/
theorem send_domain_restriction_witness :
    ((sendPackedSeq stridedTensorArgs false).2.isSome = true ↔
      ∃ a ∈ stridedTensorArgs, offending false a = true) ∧
    ((sendPackedSeq [FFIAny.int 3] false).2.isSome = true ↔
      ∃ a ∈ [FFIAny.int 3], offending false a = true) :=
  ⟨(send_domain_restriction stridedTensorArgs false ⟨0, ⟨0, 0⟩, ⟨0, 0, 0⟩, [], Option.none, 0⟩ 0).1,
    (send_domain_restriction [FFIAny.int 3] false ⟨0, ⟨0, 0⟩, ⟨0, 0, 0⟩, [], Option.none, 0⟩ 0).1⟩

theorem relayStep_send {σ : Type} (L : BcastSessionI σ) (nid wpn : Int) (s : σ)
    (wid : Int) (A : List FFIAny) (h : wid ≠ -1) :
    relayStep L nid wpn s (ctrlSendEnvelope wid A) =
      .ok (L.sendPacked s (wid - nid * wpn) A, [], true) := by
  unfold relayStep ctrlSendEnvelope argAsInt
  simp [h, exbind_ok]

theorem relayStep_broadcast {σ : Type} (L : BcastSessionI σ) (nid wpn : Int) (s : σ)
    (A : List FFIAny) :
    relayStep L nid wpn s (ctrlBroadcastEnvelope A) =
      .ok (L.broadcastPacked s A, [], true) := by
  unfold relayStep ctrlBroadcastEnvelope argAsInt
  simp [exbind_ok]

theorem relayStep_receive {σ : Type} (L : BcastSessionI σ) (nid wpn : Int) (s : σ)
    (wid : Int) :
    relayStep L nid wpn s (ctrlReceiveEnvelope wid) =
      .ok ((L.recvReplyPacked s (wid - nid * wpn)).2,
           [(L.recvReplyPacked s (wid - nid * wpn)).1], true) := by
  unfold relayStep ctrlReceiveEnvelope argAsInt
  simp [discoReceiveCode, discoSendCode, discoShutDownCode, exbind_ok]

theorem relayStep_shutdown {σ : Type} (L : BcastSessionI σ) (nid wpn : Int) (s : σ) :
    relayStep L nid wpn s ctrlShutdownEnvelope = .ok (L.shutdown s, [], false) := by
  unfold relayStep ctrlShutdownEnvelope argAsInt
  simp [discoReceiveCode, discoSendCode, discoShutDownCode, exbind_ok]

/-- C4: socket-relay end-to-end equivalence — the controller forwards a
targeted `SendPacked(worker_id, A)` to node
`node_id = worker_id / workers_per_node` as `[kSend][worker_id] ++ A` and
`RecvReplyPacked(worker_id)` as `[kReceive][worker_id]`; the relay
dispatches the send to local worker
`worker_id - node_id * workers_per_node`, fetches the local reply for the
receive action and sends it back verbatim, so the controller obtains
exactly the reply the local session produces for the same two calls
issued directly; a forwarded send whose target is `-1` is dispatched as a
broadcast within the node. -/
theorem socket_relay_equiv {σ : Type} (L : BcastSessionI σ) (s : σ) (wpn worker_id : Int)
    (A : List FFIAny) (hwid : 0 ≤ worker_id) (hremote : 1 ≤ ctrlNodeId wpn worker_id) :
    relayRun L (ctrlNodeId wpn worker_id) wpn s
        [ctrlSendEnvelope worker_id A, ctrlReceiveEnvelope worker_id] =
      .ok ((L.recvReplyPacked
              (L.sendPacked s (worker_id - ctrlNodeId wpn worker_id * wpn) A)
              (worker_id - ctrlNodeId wpn worker_id * wpn)).2,
           [(L.recvReplyPacked
              (L.sendPacked s (worker_id - ctrlNodeId wpn worker_id * wpn) A)
              (worker_id - ctrlNodeId wpn worker_id * wpn)).1],
           true) ∧
    relayStep L (ctrlNodeId wpn worker_id) wpn s (ctrlBroadcastEnvelope A) =
      .ok (L.broadcastPacked s A, [], true) := by
  refine ⟨?_, relayStep_broadcast L _ wpn s A⟩
  have hne : worker_id ≠ -1 := by omega
  unfold relayRun
  rw [relayStep_send L _ wpn s worker_id A hne, exbind_ok]
  simp only [if_pos rfl]
  unfold relayRun
  rw [relayStep_receive L _ wpn _ worker_id, exbind_ok]
  simp only [if_pos rfl]
  rfl

/-- Witness for C4: an echo worker on node 1 (worker 5 of a 4-per-node
topology) behaves identically through the relay and directly. -/
theorem socket_relay_equiv_witness :
    ((0 : Int) ≤ 5) ∧ (1 ≤ ctrlNodeId 4 5) ∧
    (relayRun echoSession (ctrlNodeId 4 5) 4 []
        [ctrlSendEnvelope 5 [FFIAny.int 42], ctrlReceiveEnvelope 5] =
      .ok ((echoSession.recvReplyPacked
              (echoSession.sendPacked [] (5 - ctrlNodeId 4 5 * 4) [FFIAny.int 42])
              (5 - ctrlNodeId 4 5 * 4)).2,
           [(echoSession.recvReplyPacked
              (echoSession.sendPacked [] (5 - ctrlNodeId 4 5 * 4) [FFIAny.int 42])
              (5 - ctrlNodeId 4 5 * 4)).1],
           true) ∧
    relayStep echoSession (ctrlNodeId 4 5) 4 [] (ctrlBroadcastEnvelope [FFIAny.int 42]) =
      .ok (echoSession.broadcastPacked [] [FFIAny.int 42], [], true)) :=
  ⟨by decide, by decide,
    socket_relay_equiv echoSession [] 4 5 [FFIAny.int 42] (by decide) (by decide)⟩
